import Mathlib

/-!
Shallow embedding of `src/whirlpool-dashboard/ml-api/get_css.py`.

The script defines one function, `get_css_links(url)`, which fetches a page,
parses it, collects the `<link rel="stylesheet">` elements, normalizes each
href to an absolute URL, and returns the list; any exception inside the
function is caught, an `Error:` line is printed, and `[]` is returned.
The entry point calls it on a hardcoded URL and prints a count line followed
by one URL per line.

Python strings are modelled as lists of characters (`Str`), parsed HTML
elements as a record of the attributes the code reads (`Element`), and the
fetch-and-parse step (requests.get + BeautifulSoup) as an oracle
`Str → Except Str (List Element)` whose `error` case stands for a raised
exception carrying its message.
-/

set_option autoImplicit false

/-- A Python string: a sequence of characters. -/
abbrev Str := List Char

/-- Python `s.startswith(p)`: `p` is a prefix of `s`. First argument is the
string, second the candidate prefix. -/
def startswith : Str → Str → Bool
  | _, [] => true
  | [], _ :: _ => false
  | c :: s, p :: ps => c == p && startswith s ps

/-- Python `s.lstrip('/')`: drop every leading `/` character. -/
def lstrip_slash (s : Str) : Str := s.dropWhile (fun c => c == '/')

/-- Python `s.rstrip('/')`: drop every trailing `/` character. -/
def rstrip_slash (s : Str) : Str := (s.reverse.dropWhile (fun c => c == '/')).reverse

/-- One parsed HTML element, restricted to the attributes the code reads:
its tag name, its `rel` attribute and its `href` attribute (each `none`
when absent, mirroring `link.get` returning `None`). -/
structure Element where
  tag : Str
  rel : Option Str
  href : Option Str

/-- The test performed by `soup.find_all('link', rel='stylesheet')` on one
element (line 13 of get_css.py). -/
def is_stylesheet_link (e : Element) : Bool :=
  e.tag == "link".data && e.rel == some "stylesheet".data

/-- Lines 17-21 of get_css.py: normalize one href against the page url.
If the href starts with `http` it is kept; else if it starts with `//` the
text `https:` is prepended; else the result is
`url.rstrip('/') + '/' + href.lstrip('/')`. -/
def normalize_href (url href : Str) : Str :=
  if startswith href "http".data then href
  else if startswith href "//".data then "https:".data ++ href
  else rstrip_slash url ++ '/' :: lstrip_slash href

/-- One iteration of the loop body (lines 14-22 of get_css.py): read the
href attribute; when it is absent or falsy (the empty string) the
accumulator is unchanged, otherwise the normalized href is appended. -/
def append_link (url : Str) (acc : List Str) (link : Element) : List Str :=
  match link.href with
  | none => acc
  | some href => if href.isEmpty then acc else acc ++ [normalize_href url href]

/-- Line 13 of get_css.py: `soup.find_all('link', rel='stylesheet')`, the
matching elements in document order. -/
def find_all_stylesheet (doc : List Element) : List Element :=
  doc.filter is_stylesheet_link

/-- Lines 12-23 of get_css.py: the loop over the stylesheet links, starting
from the empty list `css_links = []`. -/
def css_links_of_doc (url : Str) (doc : List Element) : List Str :=
  (find_all_stylesheet doc).foldl (append_link url) []

/-- The whole function `get_css_links` (lines 6-26). The fetch-and-parse
step is the oracle argument; its `error` case is a raised exception, caught
by the `except` clause which prints `Error: <message>` and returns `[]`.
The result is the pair (lines printed to standard output, returned list);
the function always returns, it never re-raises. -/
def get_css_links (fetch : Str → Except Str (List Element)) (url : Str) :
    List Str × List Str :=
  match fetch url with
  | Except.ok doc => ([], css_links_of_doc url doc)
  | Except.error e => (["Error: ".data ++ e], [])

/-- The hardcoded URL of the entry point (line 29). -/
def main_url : Str := "https://landonorris.com/".data

/-- The count line printed by the entry point (line 31). -/
def found_line (n : Nat) : Str :=
  "Found ".data ++ (Nat.repr n).data ++ " CSS files:".data

/-- The entry point (lines 28-33): call `get_css_links` on the hardcoded
URL, print the count line, then one line per link. The result is the pair
(all lines printed to standard output in order, process exit code). -/
def main_run (fetch : Str → Except Str (List Element)) : List Str × Nat :=
  ((get_css_links fetch main_url).1
    ++ found_line (get_css_links fetch main_url).2.length
       :: (get_css_links fetch main_url).2,
   0)

/-- The normalization rule exactly as claim C1 words it: a href beginning
with `http` is unchanged; otherwise one beginning with `//` gets `https:`
prepended; otherwise the page URL with trailing `/` stripped, then `/`,
then the href with leading `/` stripped. -/
def claim_normalize (url href : Str) : Str :=
  if startswith href "http".data then href
  else if startswith href "//".data then "https:".data ++ href
  else rstrip_slash url ++ '/' :: lstrip_slash href

/-- The entry a single element contributes to the result list: nothing
unless it has a non-empty href, otherwise its normalized href. -/
def link_entry (url : Str) (e : Element) : Option Str :=
  match e.href with
  | none => none
  | some h => if h.isEmpty then none else some (normalize_href url h)

/-- The spec notion of an absolute URL: the string begins with the scheme
`http://` or `https://`. -/
def begins_with_scheme (s : Str) : Bool :=
  startswith s "http://".data || startswith s "https://".data

/- ### Helper lemmas -/

theorem startswith_nil (s : Str) : startswith s [] = true := by
  cases s <;> rfl

theorem startswith_append_right :
    ∀ (p s t : Str), startswith s p = true → startswith (s ++ t) p = true := by
  intro p
  induction p with
  | nil => intro s t _; exact startswith_nil _
  | cons q ps ih =>
    intro s t hs
    cases s with
    | nil => exact absurd hs (by simp [startswith])
    | cons c s =>
      simp only [startswith, Bool.and_eq_true] at hs
      simp only [List.cons_append, startswith, Bool.and_eq_true]
      exact ⟨hs.1, ih s t hs.2⟩

theorem startswith_self_append (p t : Str) : startswith (p ++ t) p = true := by
  induction p with
  | nil => exact startswith_nil _
  | cons q ps ih =>
    simp only [List.cons_append, startswith, Bool.and_eq_true]
    exact ⟨by simp, ih⟩

theorem exists_of_startswith :
    ∀ (p s : Str), startswith s p = true → ∃ t, s = p ++ t := by
  intro p
  induction p with
  | nil => intro s _; exact ⟨s, rfl⟩
  | cons q ps ih =>
    intro s hs
    cases s with
    | nil => exact absurd hs (by simp [startswith])
    | cons c s =>
      simp only [startswith, Bool.and_eq_true, beq_iff_eq] at hs
      obtain ⟨t, ht⟩ := ih s hs.2
      exact ⟨t, by rw [hs.1, ht]; rfl⟩

theorem startswith_ne_nil (s : Str) (q : Char) (ps : Str)
    (h : startswith s (q :: ps) = true) : s.isEmpty = false := by
  cases s with
  | nil => exact absurd h (by simp [startswith])
  | cons c s => rfl

theorem dropWhile_append_cons (q : Char → Bool) (c : Char) (hc : q c = false) :
    ∀ (a b : Str), (a ++ c :: b).dropWhile q = a.dropWhile q ++ c :: b := by
  intro a b
  induction a with
  | nil => simp [List.dropWhile, hc]
  | cons x a ih =>
    simp only [List.cons_append, List.dropWhile]
    cases hx : q x with
    | true => simpa [hx] using ih
    | false => simp [hx]

theorem rstrip_slash_append (p t : Str) (c : Char) (hc : (c == '/') = false) :
    rstrip_slash (p ++ c :: t) = p ++ c :: rstrip_slash t := by
  unfold rstrip_slash
  rw [show (p ++ c :: t).reverse = t.reverse ++ c :: p.reverse by simp,
    dropWhile_append_cons (fun x => x == '/') c hc]
  simp

theorem foldl_append_link (url : Str) :
    ∀ (l : List Element) (acc : List Str),
      l.foldl (append_link url) acc = acc ++ l.filterMap (link_entry url) := by
  intro l
  induction l with
  | nil => intro acc; simp
  | cons e d ih =>
    intro acc
    simp only [List.foldl_cons, List.filterMap_cons]
    rw [ih]
    unfold append_link link_entry
    cases e.href with
    | none => simp
    | some h =>
      by_cases hh : h.isEmpty
      · simp [hh]
      · simp [hh]

theorem css_links_eq (url : Str) (doc : List Element) :
    css_links_of_doc url doc
      = (doc.filter is_stylesheet_link).filterMap (link_entry url) := by
  unfold css_links_of_doc find_all_stylesheet
  rw [foldl_append_link]
  simp

theorem startswith_trans (s p q : Str) (h1 : startswith s p = true)
    (h2 : startswith p q = true) : startswith s q = true := by
  obtain ⟨t1, rfl⟩ := exists_of_startswith p s h1
  obtain ⟨t2, rfl⟩ := exists_of_startswith q p h2
  rw [List.append_assoc]
  exact startswith_self_append _ _

theorem claim_normalize_eq (url href : Str) :
    claim_normalize url href = normalize_href url href := rfl

/- ### Concrete fetch oracles used by the witnesses -/

/-- A fetch that raises an exception with message `boom`. -/
def err_fetch : Str → Except Str (List Element) :=
  fun _ => Except.error "boom".data

/-- A fetch that returns a page with no elements. -/
def fetch_a : Str → Except Str (List Element) :=
  fun _ => Except.ok []

/-- Another fetch that agrees with `fetch_a` on every non-empty url. -/
def fetch_b : Str → Except Str (List Element) :=
  fun u => if u.isEmpty then Except.error [] else Except.ok []

/-- A fetch that returns a page with one relative stylesheet link. -/
def ok_fetch_rel : Str → Except Str (List Element) :=
  fun _ => Except.ok
    [Element.mk "link".data (some "stylesheet".data) (some "style.css".data)]

/-- A fetch that returns a page with one absolute stylesheet link. -/
def ok_fetch_abs : Str → Except Str (List Element) :=
  fun _ => Except.ok
    [Element.mk "link".data (some "stylesheet".data) (some "http://a.css".data)]

/- ### Claims -/

/-- Claim C2: any exception raised during the fetch, parse or extraction
steps is caught inside `get_css_links`; an `Error:` line holding the
message is printed, the empty list is returned, and the function returns
normally (the model is a total function, so nothing propagates). -/
theorem claim_C2_error_handling (fetch : Str → Except Str (List Element))
    (url e : Str) (hf : fetch url = Except.error e) :
    get_css_links fetch url = (["Error: ".data ++ e], []) := by
  unfold get_css_links
  rw [hf]

theorem claim_C2_witness :
    get_css_links err_fetch "https://x".data = (["Error: boom".data], []) := by
  have h := claim_C2_error_handling err_fetch "https://x".data "boom".data rfl
  rw [h]
  decide

/-- Claim C4: the extractor collects exactly the link elements whose rel
attribute equals `stylesheet`, in document order; every other element
contributes no entry (its `link_entry` is only consulted after the
`is_stylesheet_link` filter). -/
theorem claim_C4_stylesheet_collection (url : Str) (doc : List Element) :
    css_links_of_doc url doc
      = (doc.filter is_stylesheet_link).filterMap (link_entry url) :=
  css_links_eq url doc

/-- Claim C5: the three concrete normalization cases. A href
`//cdn.example.com/a.css` yields `https://cdn.example.com/a.css`; href
`style.css` with page URL `https://example.com/` yields
`https://example.com/style.css`; href `/style.css` with page URL
`https://example.com` yields `https://example.com/style.css`. -/
theorem claim_C5_concrete_cases :
    css_links_of_doc "https://example.com/".data
        [Element.mk "link".data (some "stylesheet".data)
          (some "//cdn.example.com/a.css".data)]
      = ["https://cdn.example.com/a.css".data]
    ∧ css_links_of_doc "https://example.com/".data
        [Element.mk "link".data (some "stylesheet".data)
          (some "style.css".data)]
      = ["https://example.com/style.css".data]
    ∧ css_links_of_doc "https://example.com".data
        [Element.mk "link".data (some "stylesheet".data)
          (some "/style.css".data)]
      = ["https://example.com/style.css".data] := by
  decide

theorem css_abs_helper (url : Str) :
    ∀ (l : List Element),
      (∀ e ∈ l, is_stylesheet_link e = true →
        ∃ h, e.href = some h ∧ startswith h "http".data = true) →
      (l.filter is_stylesheet_link).filterMap (link_entry url)
          = (l.filter is_stylesheet_link).filterMap Element.href
      ∧ ((l.filter is_stylesheet_link).filterMap (link_entry url)).length
          = (l.filter is_stylesheet_link).length := by
  intro l
  induction l with
  | nil => intro _; exact ⟨rfl, rfl⟩
  | cons e d ih =>
    intro hall
    have hd := ih (fun x hx hpx => hall x (List.mem_cons_of_mem e hx) hpx)
    cases hp : is_stylesheet_link e with
    | false => simpa [List.filter_cons, hp] using hd
    | true =>
      obtain ⟨h, hh, hstart⟩ := hall e (List.mem_cons_self e d) hp
      have hne : h.isEmpty = false := startswith_ne_nil h 'h' "ttp".data
        (by exact hstart)
      have hentry : link_entry url e = some h := by
        simp [link_entry, hh, hne, normalize_href, hstart]
      constructor
      · simp [List.filter_cons, hp, List.filterMap_cons, hentry, hh, hd.1]
      · simp [List.filter_cons, hp, List.filterMap_cons, hentry, hd.2]

/-- Claim C6: when every stylesheet link of the document carries an
absolute, `http`-prefixed href, the result is exactly those hrefs,
unchanged and in document order, duplicates kept, so its length is the
number of such elements. -/
theorem claim_C6_absolute_hrefs (url : Str) (doc : List Element)
    (hall : ∀ e ∈ doc, is_stylesheet_link e = true →
      ∃ h, e.href = some h ∧ startswith h "http".data = true) :
    css_links_of_doc url doc
        = (find_all_stylesheet doc).filterMap Element.href
    ∧ (css_links_of_doc url doc).length = (find_all_stylesheet doc).length := by
  rw [css_links_eq]
  unfold find_all_stylesheet
  exact css_abs_helper url doc hall

/-- A document with the same absolute stylesheet link twice. -/
def abs_doc : List Element :=
  [Element.mk "link".data (some "stylesheet".data) (some "http://a.css".data),
   Element.mk "link".data (some "stylesheet".data) (some "http://a.css".data)]

theorem claim_C6_witness :
    css_links_of_doc "https://example.com".data abs_doc
      = ["http://a.css".data, "http://a.css".data]
    ∧ (css_links_of_doc "https://example.com".data abs_doc).length = 2 := by
  have hall : ∀ e ∈ abs_doc, is_stylesheet_link e = true →
      ∃ h, e.href = some h ∧ startswith h "http".data = true := by
    intro e he _
    rcases List.mem_cons.mp he with rfl | he2
    · exact ⟨"http://a.css".data, rfl, by decide⟩
    rcases List.mem_cons.mp he2 with rfl | he3
    · exact ⟨"http://a.css".data, rfl, by decide⟩
    exact absurd he3 (List.not_mem_nil e)
  have H := claim_C6_absolute_hrefs "https://example.com".data abs_doc hall
  exact ⟨H.1.trans (by decide), H.2.trans (by decide)⟩

/-- Claim C8: on success the entry point prints `Found N CSS files:` with N
the length of the returned list, then the N URLs in order; on failure it
prints one `Error:` line then `Found 0 CSS files:` and nothing else; the
exit code is 0 in every case. -/
theorem claim_C8_entry_point (fetch : Str → Except Str (List Element)) :
    (∀ doc, fetch main_url = Except.ok doc →
      (main_run fetch).1
        = found_line (css_links_of_doc main_url doc).length
          :: css_links_of_doc main_url doc)
    ∧ (∀ e, fetch main_url = Except.error e →
      (main_run fetch).1 = ["Error: ".data ++ e, found_line 0])
    ∧ (main_run fetch).2 = 0 := by
  refine ⟨?_, ?_, rfl⟩
  · intro doc hf
    unfold main_run get_css_links
    rw [hf]
    simp
  · intro e hf
    unfold main_run get_css_links
    rw [hf]
    simp

theorem claim_C8_witness :
    (main_run ok_fetch_abs).1
      = ["Found 1 CSS files:".data, "http://a.css".data]
    ∧ (main_run err_fetch).1
      = ["Error: boom".data, "Found 0 CSS files:".data]
    ∧ (main_run ok_fetch_abs).2 = 0 := by
  refine ⟨?_, ?_, (claim_C8_entry_point ok_fetch_abs).2.2⟩
  · have h := (claim_C8_entry_point ok_fetch_abs).1
      [Element.mk "link".data (some "stylesheet".data)
        (some "http://a.css".data)] rfl
    rw [h]
    decide
  · have h := (claim_C8_entry_point err_fetch).2.1 "boom".data rfl
    rw [h]
    decide

/-- Claim C7: a stylesheet link element with no href attribute contributes
no entry and raises no error: removing it from the document leaves the
result unchanged. -/
theorem claim_C7_missing_href (url : Str) (l1 l2 : List Element) :
    css_links_of_doc url
        (l1 ++ Element.mk "link".data (some "stylesheet".data) none :: l2)
      = css_links_of_doc url (l1 ++ l2) := by
  have hs : is_stylesheet_link
      (Element.mk "link".data (some "stylesheet".data) none) = true := by decide
  have he : link_entry url
      (Element.mk "link".data (some "stylesheet".data) none) = none := rfl
  rw [css_links_eq, css_links_eq, List.filter_append, List.filter_append,
    List.filter_cons, hs]
  simp [List.filterMap_append, List.filterMap_cons, he]

/-- Claim C9: the extractor is deterministic: two runs that fetch the same
response body for the url return the same printed lines and the same
ordered result. -/
theorem claim_C9_deterministic (f1 f2 : Str → Except Str (List Element))
    (url : Str) (h : f1 url = f2 url) :
    get_css_links f1 url = get_css_links f2 url := by
  unfold get_css_links
  rw [h]

theorem claim_C9_witness :
    get_css_links fetch_a "https://x".data
      = get_css_links fetch_b "https://x".data :=
  claim_C9_deterministic fetch_a fetch_b "https://x".data rfl

/-- Claim C1, counterexample: a stylesheet link whose href is present but
empty produces no entry at all, while the normalization rule of the claim
would produce the page URL followed by a slash; so the claim, quantified
over every non-missing href, fails on the empty href. -/
theorem claim_C1_counterexample :
    css_links_of_doc "https://example.com".data
        [Element.mk "link".data (some "stylesheet".data) (some [])]
      = []
    ∧ claim_normalize "https://example.com".data []
      = "https://example.com/".data := by
  decide

/-- Claim C1, amended: for every stylesheet link element with a non-missing
and non-empty href, the entry appended for it is exactly the href
normalized by the stated rule: unchanged when it begins with `http`,
prefixed with `https:` when it begins with `//`, and otherwise the page URL
with trailing `/` stripped, then `/`, then the href with leading `/`
stripped. -/
theorem claim_C1_normalization (url : Str) (e : Element) (h : Str)
    (l1 l2 : List Element) (hs : is_stylesheet_link e = true)
    (hh : e.href = some h) (hne : h.isEmpty = false) :
    css_links_of_doc url (l1 ++ e :: l2)
      = css_links_of_doc url l1
        ++ claim_normalize url h :: css_links_of_doc url l2 := by
  have hentry : link_entry url e = some (normalize_href url h) := by
    simp [link_entry, hh, hne]
  rw [css_links_eq, css_links_eq, css_links_eq, List.filter_append,
    List.filter_cons, hs]
  simp only [if_true, List.filterMap_append, List.filterMap_cons, hentry]
  rw [claim_normalize_eq]

theorem claim_C1_witness :
    css_links_of_doc "https://example.com".data
        ([] ++ Element.mk "link".data (some "stylesheet".data)
           (some "style.css".data) :: [])
      = css_links_of_doc "https://example.com".data []
        ++ claim_normalize "https://example.com".data "style.css".data
           :: css_links_of_doc "https://example.com".data [] :=
  claim_C1_normalization "https://example.com".data
    (Element.mk "link".data (some "stylesheet".data) (some "style.css".data))
    "style.css".data [] [] (by decide) rfl rfl

/-- Claim C3, counterexample: with the valid absolute page URL
`https://example.com`, a stylesheet href `httponly.css` is returned
verbatim because it textually begins with `http`; the returned string
contains no colon, so it begins with no URI scheme at all and is a
relative URL returned uncorrected. -/
theorem claim_C3_counterexample :
    css_links_of_doc "https://example.com".data
        [Element.mk "link".data (some "stylesheet".data)
          (some "httponly.css".data)]
      = ["httponly.css".data]
    ∧ begins_with_scheme "httponly.css".data = false
    ∧ "httponly.css".data.contains ':' = false := by
  decide

theorem normalize_startswith_http (url h : Str)
    (hu : begins_with_scheme url = true) :
    startswith (normalize_href url h) "http".data = true := by
  unfold normalize_href
  by_cases h1 : startswith h "http".data = true
  · rw [if_pos h1]
    exact h1
  · rw [if_neg h1]
    by_cases h2 : startswith h "//".data = true
    · rw [if_pos h2]
      exact startswith_trans _ _ _ (startswith_self_append "https:".data h)
        (by decide)
    · rw [if_neg h2]
      unfold begins_with_scheme at hu
      rw [Bool.or_eq_true] at hu
      have hstart : startswith (rstrip_slash url) "http".data = true := by
        rcases hu with hA | hB
        · obtain ⟨rest, hrest⟩ := exists_of_startswith "http://".data url hA
          rw [hrest,
            show ("http://".data ++ rest : Str)
              = "http".data ++ ':' :: ('/' :: '/' :: rest) from rfl,
            rstrip_slash_append "http".data ('/' :: '/' :: rest) ':'
              (by decide)]
          exact startswith_self_append "http".data _
        · obtain ⟨rest, hrest⟩ := exists_of_startswith "https://".data url hB
          rw [hrest,
            show ("https://".data ++ rest : Str)
              = "https".data ++ ':' :: ('/' :: '/' :: rest) from rfl,
            rstrip_slash_append "https".data ('/' :: '/' :: rest) ':'
              (by decide)]
          exact startswith_trans _ _ _
            (startswith_self_append "https".data _) (by decide)
      exact startswith_append_right _ _ _ hstart

/-- Claim C3, amended: for every page URL that begins with the scheme
`http://` or `https://` and every fetched document, every string in the
result begins with the four characters `http`; but a path-relative href
that itself begins with `http` is returned unchanged, so an entry need not
begin with a URI scheme and a relative URL can be returned uncorrected. -/
theorem claim_C3_result_shape (fetch : Str → Except Str (List Element))
    (url : Str) (doc : List Element) (hu : begins_with_scheme url = true)
    (hf : fetch url = Except.ok doc) :
    ∀ s ∈ (get_css_links fetch url).2, startswith s "http".data = true := by
  intro s hsmem
  have hres : (get_css_links fetch url).2 = css_links_of_doc url doc := by
    unfold get_css_links
    rw [hf]
  rw [hres, css_links_eq, List.mem_filterMap] at hsmem
  obtain ⟨e, _, hent⟩ := hsmem
  cases hh : e.href with
  | none =>
    simp [link_entry, hh] at hent
  | some h =>
    simp only [link_entry, hh] at hent
    cases hne : h.isEmpty with
    | true =>
      simp [hne] at hent
    | false =>
      simp only [hne, Bool.false_eq_true, if_false, Option.some.injEq] at hent
      rw [← hent]
      exact normalize_startswith_http url h hu

theorem claim_C3_witness :
    startswith "https://example.com/style.css".data "http".data = true :=
  claim_C3_result_shape ok_fetch_rel "https://example.com".data
    [Element.mk "link".data (some "stylesheet".data) (some "style.css".data)]
    (by decide) rfl "https://example.com/style.css".data (by decide)

/-- Claim C10: a stylesheet link element whose href is present but empty
contributes no entry: the usability test is Python truthiness, so the
empty string is skipped exactly like an absent href. -/
theorem claim_C10_empty_href (url : Str) (l1 l2 : List Element) :
    css_links_of_doc url
        (l1 ++ Element.mk "link".data (some "stylesheet".data) (some []) :: l2)
      = css_links_of_doc url (l1 ++ l2) := by
  have hs : is_stylesheet_link
      (Element.mk "link".data (some "stylesheet".data) (some [])) = true := by
    decide
  have he : link_entry url
      (Element.mk "link".data (some "stylesheet".data) (some [])) = none := rfl
  rw [css_links_eq, css_links_eq, List.filter_append, List.filter_append,
    List.filter_cons, hs]
  simp [List.filterMap_append, List.filterMap_cons, he]
